import Mathlib

/-! Shallow embedding of `src/data_collector.py` (class `DataCollector`):
pagination discovery, ID harvesting, pooled detail fetch, salary
normalization, columnar assembly and the pickle file cache.  Python floats
are modelled as exact rationals, JSON objects as structures, and the ambient
effects of a run (HTTP responses, cache-directory contents, worker-completion
timing, write success) as an explicit `Env` record.  Line numbers in the doc
comments refer to `src/data_collector.py`. -/

namespace DataCollector

/-- Python exceptions that the modelled code can raise. -/
inductive PyErr where
  | osError      -- an OSError other than FileNotFoundError (open / pickle.dump), e.g. PermissionError
  | indexError   -- IndexError from tuple indexing in the assembly loop
  | remoteError  -- a requests / JSON-decoding failure of a page request
  deriving DecidableEq, Repr

/-- JSON object holding only a name field (employer, experience, schedule and
the elements of key_skills). -/
structure NameObj where
  name : String
  deriving DecidableEq, Repr

/-- JSON object holding only an id field (the elements of a page's items list). -/
structure IdObj where
  id : String
  deriving DecidableEq, Repr

/-- JSON salary object (lines 79-83): nullable integer bounds `from` and `to`
(rendered `from_` / `to_` because `from` is reserved in Lean), a currency code
and a nullable gross flag. -/
structure SalaryJson where
  from_ : Option Int
  to_ : Option Int
  currency : String
  gross : Option Bool
  deriving DecidableEq, Repr

/-- JSON detail record of one vacancy (the fields read at lines 72-97); the
fields the code accesses unconditionally are assumed present. -/
structure VacancyJson where
  employer : NameObj
  name : String
  salary : Option SalaryJson
  experience : NameObj
  schedule : NameObj
  key_skills : List NameObj
  description : String
  deriving DecidableEq, Repr

/-- JSON of one page request: `items` is `none` when the response has no
items key (`"items" not in data`, line 138). -/
structure PageJson where
  items : Option (List IdObj)
  deriving DecidableEq, Repr

/-- Entries of the heterogeneous 10-tuple returned by `get_vacancy`. -/
inductive Value where
  | str (s : String)
  | bool (b : Bool)
  | optInt (n : Option Int)
  | strList (l : List String)
  deriving DecidableEq, Repr

/-- Named view of the 10-tuple built at lines 86-97, in tuple order. -/
structure Vacancy where
  id : String
  employer : String
  name : String
  has_salary : Bool
  salary_from : Option Int
  salary_to : Option Int
  experience : String
  schedule : String
  keys : List String
  description : String
  deriving DecidableEq, Repr

/-- Scan for the end of a lazy Python-regex match of `<.*?>` started at a `<`:
the next `>`, provided no newline comes first (`.` does not match a newline in
Python `re`); `none` when the candidate `<` cannot complete a match. -/
def find_tag_end : List Char → Option (List Char)
  | [] => none
  | c :: rest => if c = '>' then some rest else if c = '\n' then none else find_tag_end rest

/-- Fuel-indexed scanner for `re.sub("<.*?>", "", s)` (lines 59-60): a `<` that
opens a completable match swallows everything through the matching `>`; a `<`
with no `>` before the next newline or the end of input stays in the output
(the regex fails at that position, and every later `<` before that newline
fails at it too).  One unit of fuel is spent per step and every step consumes
at least one character, so fuel equal to the length of the input suffices. -/
def clean_go : Nat → List Char → List Char
  | 0, _ => []
  | _ + 1, [] => []
  | fuel + 1, c :: rest =>
    if c = '<' then
      match find_tag_end rest with
      | some rest2 => clean_go fuel rest2
      | none => c :: clean_go fuel rest
    else c :: clean_go fuel rest

/-- Lines 44-60: `clean_tags`, removal of every `<.*?>` match. -/
def clean_tags (html_text : String) : String :=
  String.mk (clean_go html_text.data.length html_text.data)

/-- Lines 62-64: net-of-tax factor (`0.87 if is_gross else 1`). -/
def convert_gross (is_gross : Bool) : ℚ :=
  if is_gross then 87 / 100 else 1

/-- Python truthiness of the nullable gross flag read with `.get` at line 79
(`None` is falsy, so only an explicit `true` selects the 0.87 factor). -/
def pyTruthy (b : Option Bool) : Bool := b.getD false

/-- Python `int()` applied to a (here exactly-rational) float: truncation
toward zero, written with natural division so that it evaluates by `decide`. -/
def int_trunc (q : ℚ) : Int :=
  if 0 ≤ q.num then ((q.num.natAbs / q.den : Nat) : Int)
  else -((q.num.natAbs / q.den : Nat) : Int)

/-- Floor of a rational, written with natural division so that it evaluates by
`decide`. -/
def rat_floor (q : ℚ) : Int :=
  if 0 ≤ q.num then ((q.num.natAbs / q.den : Nat) : Int)
  else -(((q.num.natAbs + q.den - 1) / q.den : Nat) : Int)

/-- Python 3 `round()` on a float: round to nearest, ties to even. -/
def py_round (q : ℚ) : Int :=
  let n := rat_floor q
  let r := q - (n : ℚ)
  if r < 1 / 2 then n
  else if 1 / 2 < r then n + 1
  else if n % 2 = 0 then n else n + 1

/-- Lines 66-97: fetch one detail record and normalize it.  The network fetch
`requests.api.get(url).json()` is modelled by the environment function
`vacResp`.  `if salary:` tests Python truthiness of the nullable salary object
(`none` is the JSON null); the loop over the `from_to` dict updates each bound
independently, with the same gross factor; `salary is not None` is `isSome`. -/
def get_vacancy (rates : String → ℚ) (vacResp : String → VacancyJson)
    (vacancy_id : String) : Vacancy :=
  let vacancy := vacResp vacancy_id
  let salary := vacancy.salary
  let from_to : Option Int × Option Int :=
    match salary with
    | none => (none, none)
    | some s =>
      let is_gross := s.gross
      (s.from_.map (fun v =>
         int_trunc (convert_gross (pyTruthy is_gross) * (v : ℚ) / rates s.currency)),
       s.to_.map (fun v =>
         int_trunc (convert_gross (pyTruthy is_gross) * (v : ℚ) / rates s.currency)))
  { id := vacancy_id
    employer := vacancy.employer.name
    name := vacancy.name
    has_salary := salary.isSome
    salary_from := from_to.1
    salary_to := from_to.2
    experience := vacancy.experience.name
    schedule := vacancy.schedule.name
    keys := vacancy.key_skills.map (fun el => el.name)
    description := clean_tags vacancy.description }

/-- Lines 28-39: the keys of the result dict, in insertion order. -/
def DICT_KEYS : List String :=
  ["Ids", "Employer", "Name", "Salary", "From", "To",
   "Experience", "Schedule", "Keys", "Description"]

/-- Columnar result dict: field name paired with its column, in key order. -/
abbrev ResultDict := List (String × List Value)

/-- Semantics of `ThreadPoolExecutor(max_workers).map` at lines 144-151:
workers may finish in any order — modelled by the `completion` list of input
positions, in finishing order — but `map` hands the results back
position-aligned with its inputs.  The pool size `max_workers` only influences
the timing, hence is absorbed into the completion order; `tqdm` is a progress
display with no effect on the data. -/
def executor_map {α : Type u} {β : Type v} (f : α → β) (inputs : List α)
    (completion : List Nat) : List β :=
  let finished := completion.filterMap (fun i => (inputs[i]?).map (fun x => (i, f x)))
  (List.range inputs.length).filterMap
    (fun i => (finished.find? (fun p => p.1 == i)).map Prod.snd)

/-- Line 153, `list(zip(*jobs_list))`, specialised to the rows produced by
`get_vacancy`: every row is a 10-tuple, so the zip of one or more rows is the
list of the 10 columns in tuple order, and the zip of zero rows is empty. -/
def unzip_jobs (jobs : List Vacancy) : List (List Value) :=
  match jobs with
  | [] => []
  | _ :: _ =>
    [jobs.map (fun j => Value.str j.id),
     jobs.map (fun j => Value.str j.employer),
     jobs.map (fun j => Value.str j.name),
     jobs.map (fun j => Value.bool j.has_salary),
     jobs.map (fun j => Value.optInt j.salary_from),
     jobs.map (fun j => Value.optInt j.salary_to),
     jobs.map (fun j => Value.str j.experience),
     jobs.map (fun j => Value.str j.schedule),
     jobs.map (fun j => Value.strList j.keys),
     jobs.map (fun j => Value.str j.description)]

/-- Lines 155-157: `for idx, key in enumerate(DICT_KEYS): result[key] =
unzipped_list[idx]`.  Indexing `unzipped_list` past its end raises IndexError,
which nothing catches. -/
def assemble (unzipped : List (List Value)) : Except PyErr ResultDict :=
  DICT_KEYS.enum.mapM (fun ik =>
    match unzipped[ik.1]? with
    | some col => Except.ok (ik.2, col)
    | none => Except.error PyErr.indexError)

/-- Lines 134-140, instrumented with the list of page indices actually
requested (the source performs one `requests.get` per loop iteration).  A
failed page request propagates; a response without an items key breaks out of
the loop; otherwise the ids of the page's items are appended and the loop
continues. -/
def harvest_loop (pageResp : Nat → Except PyErr PageJson) :
    List Nat → Except PyErr (List Nat × List String)
  | [] => Except.ok ([], [])
  | idx :: rest =>
    match pageResp idx with
    | Except.error e => Except.error e
    | Except.ok data =>
      match data.items with
      | none => Except.ok ([idx], [])
      | some items =>
        match harvest_loop pageResp rest with
        | Except.error e => Except.error e
        | Except.ok (reqs, ids) =>
          Except.ok (idx :: reqs, items.map (fun x => x.id) ++ ids)

/-- Lines 134-140: `for idx in range(num_pages + 1)` — one page past the
remote-reported count. -/
def harvest_ids (pageResp : Nat → Except PyErr PageJson) (num_pages : Nat) :
    Except PyErr (List Nat × List String) :=
  harvest_loop pageResp (List.range (num_pages + 1))

/-- State of one file name of the cache directory, classified by how
`open(cache_file, "rb")` followed by `pickle.load` behaves on it. -/
inductive CacheSlot where
  | absent                  -- no such file: open raises FileNotFoundError (caught, line 126)
  | corrupt                 -- content making pickle.load raise UnpicklingError (caught, line 126)
  | unreadable              -- open itself fails, e.g. PermissionError (not in the except clause)
  | entry (r : ResultDict)  -- healthy pickle of a result dict
  deriving DecidableEq

/-- Lines 119-126, the read side of the cache: `pickle.load(open(cache_file,
"rb"))` guarded by `except (FileNotFoundError, pickle.UnpicklingError): pass`,
keyed by the already-hashed file name.  `ok none` is the recovered
fall-through, `ok (some r)` the early return of a hit, and `error` an
exception that escapes the except clause. -/
def cache_get (store : String → CacheSlot) (cache_file : String) :
    Except PyErr (Option ResultDict) :=
  match store cache_file with
  | CacheSlot.entry r => Except.ok (some r)
  | CacheSlot.absent => Except.ok none
  | CacheSlot.corrupt => Except.ok none
  | CacheSlot.unreadable => Except.error PyErr.osError

/-- Line 159, a successful `pickle.dump(result, open(cache_file, "wb"))`: the
slot under the file name is overwritten, all others are untouched. -/
def cache_put (store : String → CacheSlot) (cache_file : String) (r : ResultDict) :
    String → CacheSlot :=
  fun k => if k = cache_file then CacheSlot.entry r else store k

/-- Fold of successful cache writes starting from an empty cache directory,
each keyed by the digest of its query text. -/
def puts (md5 : String → String) (writes : List (String × ResultDict)) :
    String → CacheSlot :=
  writes.foldl (fun st w => cache_put st (md5 w.1) w.2) (fun _ => CacheSlot.absent)

/-- Ambient effects of one `collect_vacancies` run. -/
structure Env where
  numPages : Nat                            -- the pages field of the first request (line 131)
  pageResp : Nat → Except PyErr PageJson    -- per-page GET (line 136)
  vacResp : String → VacancyJson            -- per-id GET (line 69)
  completion : List Nat                     -- order in which pool workers finish
  cache : String → CacheSlot                -- contents of the cache directory
  writeOk : Bool                            -- whether the final pickle.dump succeeds (line 159)

/-- Lines 143-157: fan the harvested ids out over the worker pool, zip the
resulting rows into columns and build the result dict. -/
def collect_from_ids (rates : String → ℚ) (vacResp : String → VacancyJson)
    (completion : List Nat) (ids : List String) : Except PyErr ResultDict :=
  assemble (unzip_jobs (executor_map (get_vacancy rates vacResp) ids completion))

/-- Lines 129-160: the fresh-collection tail of `collect_vacancies`, reached
when the cache check falls through — page-count discovery, ID harvesting,
pooled fetch, assembly and the final cache write.  A failing final
`pickle.dump` (line 159) raises, which nothing catches. -/
def fresh_collect (md5 : String → String) (rates : String → ℚ) (env : Env)
    (text : String) : Except PyErr (ResultDict × (String → CacheSlot)) :=
  match harvest_ids env.pageResp env.numPages with
  | Except.error e => Except.error e
  | Except.ok (_, ids) =>
    match collect_from_ids rates env.vacResp env.completion ids with
    | Except.error e => Except.error e
    | Except.ok result =>
      if env.writeOk then Except.ok (result, cache_put env.cache (md5 text) result)
      else Except.error PyErr.osError

/-- Lines 99-160: the public entry point.  The md5 hexdigest of line 120 is a
parameter (the claims need only its determinism and collision behaviour); the
query enters as its text key, the only part the function inspects (the other
query params only shape the remote responses, i.e. the environment).  Returns
the result dict together with the final cache-directory state.  With
`refresh = true` the guarded early return at lines 123-125 is skipped without
touching the cache file. -/
def collect_vacancies (md5 : String → String) (rates : String → ℚ) (env : Env)
    (text : String) (refresh : Bool) :
    Except PyErr (ResultDict × (String → CacheSlot)) :=
  let cache_file := md5 text
  let hit : Except PyErr (Option ResultDict) :=
    if refresh then Except.ok none else cache_get env.cache cache_file
  match hit with
  | Except.error e => Except.error e
  | Except.ok (some r) => Except.ok (r, env.cache)
  | Except.ok none => fresh_collect md5 rates env text

/-- Concrete rate table for the salary-rounding counterexample. -/
def c1Rates : String → ℚ := fun c => if c = "USD" then 2 else 1

/-- Concrete detail record for the salary-rounding counterexample: a non-gross
salary with lower bound 3 in a currency whose rate is 2, so the exact quotient
is 3/2. -/
def c1Vac : VacancyJson :=
  { employer := ⟨"e"⟩, name := "n",
    salary := some { from_ := some 3, to_ := none, currency := "USD", gross := some false },
    experience := ⟨"x"⟩, schedule := ⟨"s"⟩, key_skills := [], description := "d" }

/-- Concrete rate table for the C1 witness. -/
def c1wRates : String → ℚ := fun _ => 1

/-- Concrete salary block for the C1 witness: both bounds present, gross. -/
def c1wSal : SalaryJson := { from_ := some 100, to_ := some 200, currency := "RUR", gross := some true }

/-- Concrete detail record for the C1 witness. -/
def c1wVac : VacancyJson :=
  { employer := ⟨"e"⟩, name := "n", salary := some c1wSal,
    experience := ⟨"x"⟩, schedule := ⟨"s"⟩, key_skills := [], description := "d" }

/-- Concrete detail record for the C7 witness: from-bound null, to-bound 2000. -/
def c7Vac : VacancyJson :=
  { employer := ⟨"e"⟩, name := "n",
    salary := some { from_ := none, to_ := some 2000, currency := "RUR", gross := some false },
    experience := ⟨"x"⟩, schedule := ⟨"s"⟩, key_skills := [], description := "d" }

/-- Variant of `c7Vac` differing only in the to-bound. -/
def c7VacB : VacancyJson :=
  { employer := ⟨"e"⟩, name := "n",
    salary := some { from_ := none, to_ := none, currency := "RUR", gross := some false },
    experience := ⟨"x"⟩, schedule := ⟨"s"⟩, key_skills := [], description := "d" }

/-- Variant of `c7Vac` differing only in the from-bound. -/
def c7VacC : VacancyJson :=
  { employer := ⟨"e"⟩, name := "n",
    salary := some { from_ := some 5, to_ := some 2000, currency := "RUR", gross := some false },
    experience := ⟨"x"⟩, schedule := ⟨"s"⟩, key_skills := [], description := "d" }

/-- Concrete page table for the C4 witness, first missing-items index 3:
pages 0-2 have one item each, page 3 has no items collection. -/
def c4Items : Nat → Option (List IdObj) :=
  fun i => if i < 3 then some [⟨s!"id{i}"⟩] else none

/-- Concrete page table for the C4 witness with items on every page. -/
def c4ItemsAll : Nat → Option (List IdObj) :=
  fun i => some [⟨s!"id{i}"⟩]

/-- Concrete write list for the C9 witness. -/
def c9Writes : List (String × ResultDict) :=
  [("FPGA", [("Ids", [Value.str "1"])])]

/-- Concrete environment for the C10 witness: the very first page (index 0)
already lacks an items collection, so no IDs are harvested. -/
def c10Env : Env :=
  { numPages := 0
    pageResp := fun _ => Except.ok (PageJson.mk none)
    vacResp := fun _ => c1wVac
    completion := []
    cache := fun _ => CacheSlot.absent
    writeOk := true }

/-- Concrete environment for the C6 counterexample: the cache file for the
query exists but cannot be opened (e.g. permission denied). -/
def c6Env : Env :=
  { numPages := 0
    pageResp := fun _ => Except.ok (PageJson.mk none)
    vacResp := fun _ => c1wVac
    completion := []
    cache := fun _ => CacheSlot.unreadable
    writeOk := true }

/-- Concrete environment for the C6 witness: cache entry absent. -/
def c6wEnv : Env :=
  { numPages := 0
    pageResp := fun _ => Except.ok (PageJson.mk none)
    vacResp := fun _ => c1wVac
    completion := []
    cache := fun _ => CacheSlot.absent
    writeOk := true }

/-- Concrete environment for the C2 counterexample: one page with one item,
the detail fetch succeeds, the final pickle.dump fails. -/
def c2Env : Env :=
  { numPages := 0
    pageResp := fun _ => Except.ok (PageJson.mk (some [IdObj.mk "7"]))
    vacResp := fun _ => c1wVac
    completion := [0]
    cache := fun _ => CacheSlot.absent
    writeOk := false }

/-- Result dict that the C2 run collects in memory before the failing write. -/
def c2Result : ResultDict :=
  [("Ids", [Value.str "7"]), ("Employer", [Value.str "e"]), ("Name", [Value.str "n"]),
   ("Salary", [Value.bool true]), ("From", [Value.optInt (some 87)]),
   ("To", [Value.optInt (some 174)]), ("Experience", [Value.str "x"]),
   ("Schedule", [Value.str "s"]), ("Keys", [Value.strList []]),
   ("Description", [Value.str "d"])]

/-- Concrete environment for the C2 witness: a healthy cache entry under the
query's digest and a failing writer. -/
def c2wEnv : Env :=
  { numPages := 0
    pageResp := fun _ => Except.ok (PageJson.mk none)
    vacResp := fun _ => c1wVac
    completion := []
    cache := fun _ => CacheSlot.entry [("Ids", [Value.str "9"])]
    writeOk := false }

/-- Concrete environment for the C8 witness: one page with one item and a
working writer. -/
def c8Env : Env :=
  { numPages := 0
    pageResp := fun _ => Except.ok (PageJson.mk (some [IdObj.mk "7"]))
    vacResp := fun _ => c1wVac
    completion := [0]
    cache := fun _ => CacheSlot.absent
    writeOk := true }

/-! Theorems.  Each claim of the specification gets one theorem (plus, where
the claim fails on the code, a counterexample at a concrete input, and, when
the theorem carries hypotheses, a closed witness instantiating it). -/

unseal Rat.inv Rat.mul Rat.add Rat.sub in
/-- C1 counterexample: at raw bound 3, gross factor 1 and rate 2 the exact
quotient is 3/2; `round` gives 2 but the code (`int()`, truncation toward
zero) stores 1, so the normalized bound is not `round(rawValue * grossFactor /
rateTable[currencyCode])`. -/
theorem c1_counterexample :
    (get_vacancy c1Rates (fun _ => c1Vac) "1").salary_from = some 1
    ∧ py_round ((3 : ℚ) * convert_gross (pyTruthy (some false)) / c1Rates "USD") = 2
    ∧ (get_vacancy c1Rates (fun _ => c1Vac) "1").salary_from ≠
        some (py_round ((3 : ℚ) * convert_gross (pyTruthy (some false)) / c1Rates "USD")) := by
  decide

/-- C1 (amended): for a present salary block, each non-null bound is normalized
to the truncation toward zero (Python `int()`, not `round`) of
rawValue * grossFactor / rateTable[currencyCode]; an absent bound stays null;
the gross factor is 0.87 exactly when the salary is marked gross (flag
literally true) and 1.0 otherwise, and the same factor is applied to both
bounds. -/
theorem c1_salary_truncation (rates : String → ℚ) (vacResp : String → VacancyJson)
    (vid : String) (s : SalaryJson) (hs : (vacResp vid).salary = some s) :
    (get_vacancy rates vacResp vid).salary_from
      = s.from_.map (fun v => int_trunc (convert_gross (pyTruthy s.gross) * (v : ℚ) / rates s.currency))
    ∧ (get_vacancy rates vacResp vid).salary_to
      = s.to_.map (fun v => int_trunc (convert_gross (pyTruthy s.gross) * (v : ℚ) / rates s.currency))
    ∧ convert_gross (pyTruthy s.gross) = (if s.gross = some true then 87 / 100 else 1) := by
  refine ⟨?_, ?_, ?_⟩
  · simp only [get_vacancy, hs]
  · simp only [get_vacancy, hs]
  · cases hg : s.gross with
    | none => simp [pyTruthy, convert_gross]
    | some b => cases b <;> simp [pyTruthy, convert_gross]

/-- Witness for the amended C1 theorem at a concrete gross salary. -/
theorem c1_salary_truncation_witness :
    (get_vacancy c1wRates (fun _ => c1wVac) "7").salary_from
      = (some (100 : Int)).map (fun v => int_trunc (convert_gross (pyTruthy c1wSal.gross) * (v : ℚ) / c1wRates c1wSal.currency))
    ∧ (get_vacancy c1wRates (fun _ => c1wVac) "7").salary_to
      = (some (200 : Int)).map (fun v => int_trunc (convert_gross (pyTruthy c1wSal.gross) * (v : ℚ) / c1wRates c1wSal.currency))
    ∧ convert_gross (pyTruthy c1wSal.gross) = (if c1wSal.gross = some true then 87 / 100 else 1) :=
  c1_salary_truncation c1wRates (fun _ => c1wVac) "7" c1wSal rfl

/-- C7: hasSalary is true exactly when the detail carried a non-null salary
block; a normalized bound is null exactly when the block is absent or that
source bound is null (`Option.bind` of the block with the bound projection);
and each bound is computed independently of the other: two details agreeing on
(from, currency, gross) get the same normalized from-bound even if their
to-bounds differ, and symmetrically. -/
theorem c7_salary_nullability (rates : String → ℚ)
    (vacResp vacResp2 vacResp3 : String → VacancyJson) (vid : String)
    (hsameF : ((vacResp2 vid).salary).map (fun s => (s.from_, s.currency, s.gross))
      = ((vacResp vid).salary).map (fun s => (s.from_, s.currency, s.gross)))
    (hsameT : ((vacResp3 vid).salary).map (fun s => (s.to_, s.currency, s.gross))
      = ((vacResp vid).salary).map (fun s => (s.to_, s.currency, s.gross))) :
    (get_vacancy rates vacResp vid).has_salary = ((vacResp vid).salary).isSome
    ∧ ((get_vacancy rates vacResp vid).salary_from = none
        ↔ ((vacResp vid).salary).bind SalaryJson.from_ = none)
    ∧ ((get_vacancy rates vacResp vid).salary_to = none
        ↔ ((vacResp vid).salary).bind SalaryJson.to_ = none)
    ∧ (get_vacancy rates vacResp2 vid).salary_from = (get_vacancy rates vacResp vid).salary_from
    ∧ (get_vacancy rates vacResp3 vid).salary_to = (get_vacancy rates vacResp vid).salary_to := by
  refine ⟨?_, ?_, ?_, ?_, ?_⟩
  · cases h : (vacResp vid).salary <;> simp [get_vacancy, h]
  · cases h : (vacResp vid).salary with
    | none => simp [get_vacancy, h]
    | some s => cases hf : s.from_ <;> simp [get_vacancy, h, hf]
  · cases h : (vacResp vid).salary with
    | none => simp [get_vacancy, h]
    | some s => cases ht : s.to_ <;> simp [get_vacancy, h, ht]
  · cases h : (vacResp vid).salary with
    | none =>
      rw [h] at hsameF
      cases h2 : (vacResp2 vid).salary with
      | none => simp [get_vacancy, h, h2]
      | some s2 => rw [h2] at hsameF; simp at hsameF
    | some s =>
      rw [h] at hsameF
      cases h2 : (vacResp2 vid).salary with
      | none => rw [h2] at hsameF; simp at hsameF
      | some s2 =>
        rw [h2] at hsameF
        obtain ⟨hf, hc, hg⟩ :
            s2.from_ = s.from_ ∧ s2.currency = s.currency ∧ s2.gross = s.gross := by
          simpa [Prod.ext_iff] using hsameF
        simp [get_vacancy, h, h2, hf, hc, hg]
  · cases h : (vacResp vid).salary with
    | none =>
      rw [h] at hsameT
      cases h3 : (vacResp3 vid).salary with
      | none => simp [get_vacancy, h, h3]
      | some s3 => rw [h3] at hsameT; simp at hsameT
    | some s =>
      rw [h] at hsameT
      cases h3 : (vacResp3 vid).salary with
      | none => rw [h3] at hsameT; simp at hsameT
      | some s3 =>
        rw [h3] at hsameT
        obtain ⟨ht, hc, hg⟩ :
            s3.to_ = s.to_ ∧ s3.currency = s.currency ∧ s3.gross = s.gross := by
          simpa [Prod.ext_iff] using hsameT
        simp [get_vacancy, h, h3, ht, hc, hg]

/-- Witness for the C7 theorem at a concrete record with an absent from-bound. -/
theorem c7_salary_nullability_witness :
    (get_vacancy c1wRates (fun _ => c7Vac) "7").has_salary = ((c7Vac).salary).isSome
    ∧ ((get_vacancy c1wRates (fun _ => c7Vac) "7").salary_from = none
        ↔ ((c7Vac).salary).bind SalaryJson.from_ = none)
    ∧ ((get_vacancy c1wRates (fun _ => c7Vac) "7").salary_to = none
        ↔ ((c7Vac).salary).bind SalaryJson.to_ = none)
    ∧ (get_vacancy c1wRates (fun _ => c7VacB) "7").salary_from
        = (get_vacancy c1wRates (fun _ => c7Vac) "7").salary_from
    ∧ (get_vacancy c1wRates (fun _ => c7VacC) "7").salary_to
        = (get_vacancy c1wRates (fun _ => c7Vac) "7").salary_to :=
  c7_salary_nullability c1wRates (fun _ => c7Vac) (fun _ => c7VacB) (fun _ => c7VacC) "7"
    (by decide) (by decide)

/-- Every tagged result produced by the pool carries the value of the mapped
function at the input sitting at its tag position. -/
theorem executor_finished_mem {α : Type u} {β : Type v} (f : α → β) (inputs : List α)
    (completion : List Nat) (p : Nat × β)
    (hp : p ∈ completion.filterMap (fun i => (inputs[i]?).map (fun x => (i, f x)))) :
    ∃ x, inputs[p.1]? = some x ∧ p.2 = f x := by
  rcases List.mem_filterMap.mp hp with ⟨i, _, hmap⟩
  rcases Option.map_eq_some'.mp hmap with ⟨x, hx, hpx⟩
  subst hpx
  exact ⟨x, hx, rfl⟩

/-- Gathering the pool's tagged results at a position that some worker
completed recovers exactly the mapped value at that position. -/
theorem executor_find (f : α → β) (inputs : List α) (completion : List Nat)
    (i : Nat) (x : α) (hx : inputs[i]? = some x) (hi : i ∈ completion) :
    ((completion.filterMap (fun j => (inputs[j]?).map (fun y => (j, f y)))).find?
      (fun p => p.1 == i)).map Prod.snd = some (f x) := by
  have hmem : (i, f x) ∈ completion.filterMap (fun j => (inputs[j]?).map (fun y => (j, f y))) :=
    List.mem_filterMap.mpr ⟨i, hi, by rw [hx]; rfl⟩
  cases hfind : (completion.filterMap (fun j => (inputs[j]?).map (fun y => (j, f y)))).find?
      (fun p => p.1 == i) with
  | none =>
    exact absurd (by simp : ((fun p : Nat × β => p.1 == i) (i, f x)) = true)
      (List.find?_eq_none.mp hfind (i, f x) hmem)
  | some q =>
    have hq1 : q.1 = i := by simpa using List.find?_some hfind
    obtain ⟨y, hy, hq2⟩ := executor_finished_mem f inputs completion q
      (List.mem_of_find?_eq_some hfind)
    rw [hq1, hx] at hy
    cases hy
    simpa using hq2

/-- Applying a pointwise-`some` index function over the index range of a list
is the same as mapping over the list. -/
theorem filterMap_range_eq_map {α : Type u} {β : Type v} (f : α → β) (l : List α)
    (g : Nat → Option β) (hg : ∀ i x, l[i]? = some x → g i = some (f x)) :
    (List.range l.length).filterMap g = l.map f := by
  induction l using List.reverseRecOn with
  | nil => rfl
  | append_singleton l a ih =>
    rw [List.length_append, List.length_singleton, List.range_succ, List.filterMap_append,
      List.map_append]
    have hlast : g l.length = some (f a) := hg l.length a (List.getElem?_concat_length l a)
    rw [ih (fun i x hx => hg i x (by
      rw [List.getElem?_append, if_pos (List.getElem?_eq_some.mp hx).1]
      exact hx))]
    simp [hlast]

/-- Position-alignment of the pool gather: whenever every input position is
completed by some worker (in any order), the gathered output is exactly the
input list mapped in input order. -/
theorem executor_map_perm {α : Type u} {β : Type v} (f : α → β) (inputs : List α)
    (completion : List Nat) (hperm : completion.Perm (List.range inputs.length)) :
    executor_map f inputs completion = inputs.map f := by
  unfold executor_map
  apply filterMap_range_eq_map
  intro i x hx
  have hi : i ∈ completion := by
    rw [hperm.mem_iff, List.mem_range]
    exact (List.getElem?_eq_some.mp hx).1
  exact executor_find f inputs completion i x hx hi

/-- C3: for every harvested ID list and every completion order of the workers
(any pool size — the pool size only shapes the timing, which the completion
permutation ranges over), the collected rows are position-aligned with the
harvested IDs: row i is the normalized record of the i-th ID. -/
theorem c3_row_order (rates : String → ℚ) (vacResp : String → VacancyJson)
    (ids : List String) (completion : List Nat)
    (hperm : completion.Perm (List.range ids.length)) :
    executor_map (get_vacancy rates vacResp) ids completion
      = ids.map (get_vacancy rates vacResp) :=
  executor_map_perm (get_vacancy rates vacResp) ids completion hperm

/-- Witness for C3: the spec's scenario of IDs A, B, C with completion order
C, A, B still yields rows in order A, B, C. -/
theorem c3_row_order_witness :
    executor_map (get_vacancy c1wRates (fun _ => c1wVac)) ["A", "B", "C"] [2, 0, 1]
      = ["A", "B", "C"].map (get_vacancy c1wRates (fun _ => c1wVac)) :=
  c3_row_order c1wRates (fun _ => c1wVac) ["A", "B", "C"] [2, 0, 1] (by decide)

/-- Assembly of a non-empty jobs list: zipping one or more 10-tuples gives the
10 columns, and the key loop pairs them with `DICT_KEYS` in order. -/
theorem assemble_unzip_jobs (jobs : List Vacancy) (hne : jobs ≠ []) :
    assemble (unzip_jobs jobs) = Except.ok
      [("Ids", jobs.map (fun j => Value.str j.id)),
       ("Employer", jobs.map (fun j => Value.str j.employer)),
       ("Name", jobs.map (fun j => Value.str j.name)),
       ("Salary", jobs.map (fun j => Value.bool j.has_salary)),
       ("From", jobs.map (fun j => Value.optInt j.salary_from)),
       ("To", jobs.map (fun j => Value.optInt j.salary_to)),
       ("Experience", jobs.map (fun j => Value.str j.experience)),
       ("Schedule", jobs.map (fun j => Value.str j.schedule)),
       ("Keys", jobs.map (fun j => Value.strList j.keys)),
       ("Description", jobs.map (fun j => Value.str j.description))] := by
  match jobs, hne with
  | j :: t, _ => rfl

/-- C5: for every non-empty harvested ID list (and any worker completion order
covering every position, which every real pool run does), the assembly stage
succeeds, the result dict carries exactly the field names of `DICT_KEYS`, and
every field's column has length equal to the number of harvested IDs. -/
theorem c5_column_lengths (rates : String → ℚ) (vacResp : String → VacancyJson)
    (completion : List Nat) (ids : List String) (hne : ids ≠ [])
    (hperm : completion.Perm (List.range ids.length)) :
    (collect_from_ids rates vacResp completion ids).map (fun r => r.map Prod.fst)
      = Except.ok DICT_KEYS
    ∧ (collect_from_ids rates vacResp completion ids).map
        (fun r => r.map (fun p => p.2.length))
      = Except.ok (List.replicate DICT_KEYS.length ids.length) := by
  have hjobs : executor_map (get_vacancy rates vacResp) ids completion
      = ids.map (get_vacancy rates vacResp) :=
    executor_map_perm (get_vacancy rates vacResp) ids completion hperm
  have hmapne : ids.map (get_vacancy rates vacResp) ≠ [] := by
    intro h
    exact hne (List.map_eq_nil_iff.mp h)
  unfold collect_from_ids
  rw [hjobs, assemble_unzip_jobs (ids.map (get_vacancy rates vacResp)) hmapne]
  constructor
  · rfl
  · simp [Except.map, DICT_KEYS, List.replicate]

/-- Witness for C5 at the concrete ID list A, B with completion order B, A. -/
theorem c5_column_lengths_witness :
    (collect_from_ids c1wRates (fun _ => c1wVac) [1, 0] ["A", "B"]).map
        (fun r => r.map Prod.fst)
      = Except.ok DICT_KEYS
    ∧ (collect_from_ids c1wRates (fun _ => c1wVac) [1, 0] ["A", "B"]).map
        (fun r => r.map (fun p => p.2.length))
      = Except.ok (List.replicate DICT_KEYS.length ["A", "B"].length) :=
  c5_column_lengths c1wRates (fun _ => c1wVac) [1, 0] ["A", "B"]
    (by decide) (by decide)

/-- Looping over pages `s, s+1, ...` (`m` of them) when the page at offset `k`
is the first one whose response lacks an items key: the loop requests exactly
the pages `s .. s+k` and accumulates the ids of the pages before `s+k`, in
page order, raising nothing. -/
theorem harvest_loop_stops (items : Nat → Option (List IdObj)) :
    ∀ (k m s : Nat), k < m → items (s + k) = none →
      (∀ j, j < k → (items (s + j)).isSome) →
      harvest_loop (fun i => Except.ok (PageJson.mk (items i))) (List.range' s m)
        = Except.ok (List.range' s (k + 1),
            ((List.range' s k).map (fun i => ((items i).getD []).map (fun x => x.id))).flatten) := by
  intro k
  induction k with
  | zero =>
    intro m s hk hmiss _
    cases m with
    | zero => omega
    | succ m =>
      rw [List.range'_succ]
      simp only [harvest_loop]
      rw [show s + 0 = s from rfl] at hmiss
      rw [hmiss]
      rfl
  | succ k ih =>
    intro m s hk hmiss hbefore
    cases m with
    | zero => omega
    | succ m =>
      rw [List.range'_succ]
      obtain ⟨its, hits⟩ := Option.isSome_iff_exists.mp (hbefore 0 (Nat.succ_pos k))
      rw [show s + 0 = s from rfl] at hits
      have hrec := ih m (s + 1) (by omega)
        (by rw [show s + 1 + k = s + (k + 1) by omega]; exact hmiss)
        (fun j hj => by
          rw [show s + 1 + j = s + (j + 1) by omega]
          exact hbefore (j + 1) (by omega))
      simp only [harvest_loop, hits, hrec]
      simp [List.range'_succ, hits]

/-- Looping over pages `s, s+1, ...` (`m` of them) when every one of them has
an items key: the loop requests all of them and accumulates all their ids in
page order. -/
theorem harvest_loop_all (items : Nat → Option (List IdObj)) :
    ∀ (m s : Nat), (∀ j, j < m → (items (s + j)).isSome) →
      harvest_loop (fun i => Except.ok (PageJson.mk (items i))) (List.range' s m)
        = Except.ok (List.range' s m,
            ((List.range' s m).map (fun i => ((items i).getD []).map (fun x => x.id))).flatten) := by
  intro m
  induction m with
  | zero => intro s _; rfl
  | succ m ih =>
    intro s hall
    rw [List.range'_succ]
    obtain ⟨its, hits⟩ := Option.isSome_iff_exists.mp (hall 0 (Nat.succ_pos m))
    rw [show s + 0 = s from rfl] at hits
    have hrec := ih (s + 1) (fun j hj => by
      rw [show s + 1 + j = s + (j + 1) by omega]
      exact hall (j + 1) (by omega))
    simp only [harvest_loop, hits, hrec]
    simp [hits]

/-- C4: with all page requests succeeding, harvesting walks the page indices 0
through the remote-reported count inclusive; if the page at index k ≤ count is
the first whose response lacks an items collection, exactly pages 0..k are
requested, no error is raised, and the result is the concatenation of the item
ids of pages 0..k-1 in page and within-page order; if no page up to the count
lacks items, all pages 0..count are requested and all their ids are
concatenated in order. -/
theorem c4_harvest_pagination (items : Nat → Option (List IdObj)) (n k : Nat) :
    (k ≤ n → items k = none → (∀ j, j < k → (items j).isSome) →
      harvest_ids (fun i => Except.ok (PageJson.mk (items i))) n
        = Except.ok (List.range (k + 1),
            ((List.range k).map (fun i => ((items i).getD []).map (fun x => x.id))).flatten))
    ∧ ((∀ j, j ≤ n → (items j).isSome) →
      harvest_ids (fun i => Except.ok (PageJson.mk (items i))) n
        = Except.ok (List.range (n + 1),
            ((List.range (n + 1)).map (fun i => ((items i).getD []).map (fun x => x.id))).flatten)) := by
  constructor
  · intro hk hmiss hbefore
    unfold harvest_ids
    rw [List.range_eq_range', List.range_eq_range' (k + 1), List.range_eq_range' k]
    exact harvest_loop_stops items k (n + 1) 0 (by omega)
      (by rw [Nat.zero_add]; exact hmiss)
      (fun j hj => by rw [Nat.zero_add]; exact hbefore j hj)
  · intro hall
    unfold harvest_ids
    rw [List.range_eq_range']
    exact harvest_loop_all items (n + 1) 0
      (fun j hj => by rw [Nat.zero_add]; exact hall j (by omega))

/-- Witness for C4: with reported count 5 and page 3 lacking items, pages 0-3
are requested and the ids of pages 0-2 are returned; with reported count 2 and
items everywhere, pages 0-3 are all requested (one past the count) and all ids
are returned. -/
theorem c4_harvest_pagination_witness :
    harvest_ids (fun i => Except.ok (PageJson.mk (c4Items i))) 5
      = Except.ok (List.range 4,
          ((List.range 3).map (fun i => ((c4Items i).getD []).map (fun x => x.id))).flatten)
    ∧ harvest_ids (fun i => Except.ok (PageJson.mk (c4ItemsAll i))) 2
      = Except.ok (List.range 3,
          ((List.range 3).map (fun i => ((c4ItemsAll i).getD []).map (fun x => x.id))).flatten) :=
  ⟨(c4_harvest_pagination c4Items 5 3).1 (by decide) (by decide)
      (fun j hj => by interval_cases j <;> decide),
   (c4_harvest_pagination c4ItemsAll 2 0).2 (fun j _ => rfl)⟩

/-- Folding successful cache writes never touches the slot of a digest whose
query text was not written, provided the digest function is injective. -/
theorem puts_untouched (md5 : String → String) (hinj : Function.Injective md5)
    (text2 : String) :
    ∀ (writes : List (String × ResultDict)) (st : String → CacheSlot),
      text2 ∉ writes.map Prod.fst → st (md5 text2) = CacheSlot.absent →
      (writes.foldl (fun st w => cache_put st (md5 w.1) w.2) st) (md5 text2)
        = CacheSlot.absent := by
  intro writes
  induction writes with
  | nil => intro st _ hst; exact hst
  | cons w ws ih =>
    intro st hnot hst
    rw [List.map_cons, List.mem_cons] at hnot
    push_neg at hnot
    rw [List.foldl_cons]
    apply ih _ hnot.2
    unfold cache_put
    rw [if_neg, hst]
    intro heq
    exact hnot.1 (hinj heq)

/-- C9: a successful cache write followed by a read of the same query text
yields exactly the written ResultSet; and on a cache directory produced by any
sequence of successful writes, reading a query text that was never written is
a recovered miss (`ok none`, the fall-through to fresh collection), not an
error — assuming the digest function is collision-free on the texts involved,
as the specification grants. -/
theorem c9_cache_roundtrip (md5 : String → String) (store : String → CacheSlot)
    (writes : List (String × ResultDict)) (text text2 : String) (r : ResultDict)
    (hinj : Function.Injective md5) (hnew : text2 ∉ writes.map Prod.fst) :
    cache_get (cache_put store (md5 text) r) (md5 text) = Except.ok (some r)
    ∧ cache_get (puts md5 writes) (md5 text2) = Except.ok none := by
  constructor
  · unfold cache_get cache_put
    rw [if_pos rfl]
  · unfold cache_get
    rw [puts, puts_untouched md5 hinj text2 writes _ hnew rfl]

/-- Witness for C9: write under text FPGA and read it back; reading the unseen
text Python on the same one-write cache directory is a recovered miss. -/
theorem c9_cache_roundtrip_witness :
    cache_get (cache_put (fun _ => CacheSlot.absent) (id "FPGA") [("Ids", [Value.str "1"])])
        (id "FPGA") = Except.ok (some [("Ids", [Value.str "1"])])
    ∧ cache_get (puts id c9Writes) (id "Python") = Except.ok none :=
  c9_cache_roundtrip id (fun _ => CacheSlot.absent) c9Writes "FPGA" "Python"
    [("Ids", [Value.str "1"])] (fun _ _ h => h) (by decide)

/-- C10 core: with an empty harvested ID list the pool produces no rows, the
zip of zero rows is empty, and the very first dict assignment indexes an empty
tuple list — IndexError. -/
theorem collect_from_ids_nil (rates : String → ℚ) (vacResp : String → VacancyJson)
    (completion : List Nat) :
    collect_from_ids rates vacResp completion [] = Except.error PyErr.indexError := by
  rfl

/-- C10: whenever harvesting yields no IDs (for example the very first page
response lacks an items collection), `collect_vacancies` does not return an
empty ResultSet: the assembly loop raises an uncaught IndexError, so the run
fails.  Stated for a refresh run; a non-refresh run reaches the same code only
through the cache-miss fall-through. -/
theorem c10_empty_ids_error (md5 : String → String) (rates : String → ℚ) (env : Env)
    (text : String) (reqs : List Nat)
    (hids : harvest_ids env.pageResp env.numPages = Except.ok (reqs, [])) :
    collect_vacancies md5 rates env text true = Except.error PyErr.indexError := by
  simp [collect_vacancies, fresh_collect, hids, collect_from_ids_nil]

/-- Witness for C10: on the zero-ID environment the entry point raises
IndexError instead of returning an empty ResultSet. -/
theorem c10_empty_ids_error_witness :
    collect_vacancies id c1wRates c10Env "FPGA" true = Except.error PyErr.indexError :=
  c10_empty_ids_error id c1wRates c10Env "FPGA" [0] rfl

/-- C6 (amended): a cache entry that is absent, or whose content makes
`pickle.load` raise UnpicklingError, is recovered locally — the run proceeds
exactly as a forced-refresh run, i.e. a fresh collection — but an unreadable
entry (an OSError such as PermissionError, outside the `except
(FileNotFoundError, pickle.UnpicklingError)` clause) is NOT recovered and
surfaces to the caller. -/
theorem c6_cache_miss_recovery (md5 : String → String) (rates : String → ℚ) (env : Env)
    (text : String)
    (h : env.cache (md5 text) = CacheSlot.absent ∨ env.cache (md5 text) = CacheSlot.corrupt) :
    collect_vacancies md5 rates env text false = collect_vacancies md5 rates env text true := by
  rcases h with h | h <;> simp [collect_vacancies, cache_get, h]

/-- C6 counterexample: an unreadable cache entry is one of the three
cache-read failure kinds named by the claim, yet the run surfaces it to the
caller as a fatal OSError instead of starting a fresh collection. -/
theorem c6_counterexample :
    collect_vacancies id c1wRates c6Env "FPGA" false = Except.error PyErr.osError := by
  rfl

/-- Witness for the amended C6 theorem: with an absent entry the non-refresh
run coincides with the forced-refresh run. -/
theorem c6_cache_miss_recovery_witness :
    collect_vacancies id c1wRates c6wEnv "FPGA" false
      = collect_vacancies id c1wRates c6wEnv "FPGA" true :=
  c6_cache_miss_recovery id c1wRates c6wEnv "FPGA" (Or.inl rfl)

/-- Inversion of a successful fresh collection: success forces a working
writer, pins the final cache state to the overwritten store, and exposes the
successful harvest and assembly stages. -/
theorem fresh_collect_ok_inv (md5 : String → String) (rates : String → ℚ) (env : Env)
    (text : String) (r : ResultDict) (cFinal : String → CacheSlot)
    (hok : fresh_collect md5 rates env text = Except.ok (r, cFinal)) :
    env.writeOk = true ∧ cFinal = cache_put env.cache (md5 text) r
    ∧ ∃ reqs ids, harvest_ids env.pageResp env.numPages = Except.ok (reqs, ids)
        ∧ collect_from_ids rates env.vacResp env.completion ids = Except.ok r := by
  unfold fresh_collect at hok
  split at hok
  · exact Except.noConfusion hok
  · next reqs ids heq =>
    split at hok
    · exact Except.noConfusion hok
    · next result heq2 =>
      by_cases hw : env.writeOk = true
      · rw [if_pos hw] at hok
        simp only [Except.ok.injEq, Prod.mk.injEq] at hok
        obtain ⟨hr, hc⟩ := hok
        refine ⟨hw, ?_, reqs, ids, heq, ?_⟩
        · rw [← hc, hr]
        · rw [← hr]; exact heq2
      · rw [if_neg hw] at hok
        exact Except.noConfusion hok

/-- C2 (amended): when the final cache write fails, the exception escapes
`collect_vacancies` and the in-memory ResultSet is lost to the caller — the
only runs that can still return a ResultSet despite a failing writer are
non-refresh runs answered entirely from a healthy cache entry (which never
reach the write). -/
theorem c2_write_failure_propagates (md5 : String → String) (rates : String → ℚ)
    (env : Env) (text : String) (refresh : Bool) (r : ResultDict)
    (cFinal : String → CacheSlot) (hw : env.writeOk = false)
    (hok : collect_vacancies md5 rates env text refresh = Except.ok (r, cFinal)) :
    refresh = false ∧ env.cache (md5 text) = CacheSlot.entry r := by
  cases refresh with
  | true =>
    exfalso
    have hok2 : fresh_collect md5 rates env text = Except.ok (r, cFinal) := by
      simpa [collect_vacancies] using hok
    obtain ⟨hw2, -, -⟩ := fresh_collect_ok_inv md5 rates env text r cFinal hok2
    rw [hw] at hw2
    exact Bool.noConfusion hw2
  | false =>
    refine ⟨rfl, ?_⟩
    cases h3 : env.cache (md5 text) with
    | entry r0 =>
      simp only [collect_vacancies, Bool.false_eq_true, if_false, cache_get, h3] at hok
      simp only [Except.ok.injEq, Prod.mk.injEq] at hok
      rw [hok.1]
    | absent =>
      exfalso
      have hok2 : fresh_collect md5 rates env text = Except.ok (r, cFinal) := by
        simpa [collect_vacancies, cache_get, h3] using hok
      obtain ⟨hw2, -, -⟩ := fresh_collect_ok_inv md5 rates env text r cFinal hok2
      rw [hw] at hw2
      exact Bool.noConfusion hw2
    | corrupt =>
      exfalso
      have hok2 : fresh_collect md5 rates env text = Except.ok (r, cFinal) := by
        simpa [collect_vacancies, cache_get, h3] using hok
      obtain ⟨hw2, -, -⟩ := fresh_collect_ok_inv md5 rates env text r cFinal hok2
      rw [hw] at hw2
      exact Bool.noConfusion hw2
    | unreadable =>
      exfalso
      simp [collect_vacancies, cache_get, h3] at hok

unseal Rat.inv Rat.mul Rat.add Rat.sub in
/-- C2 counterexample: on an environment where collection succeeds (as the
second conjunct shows: with a working writer the same run returns a
ResultSet), a failing final cache write makes `collect_vacancies` raise
instead of returning the successfully collected ResultSet — the write failure
is not downgraded to a warning. -/
theorem c2_counterexample :
    collect_vacancies id c1wRates c2Env "FPGA" true = Except.error PyErr.osError
    ∧ (collect_vacancies id c1wRates { c2Env with writeOk := true } "FPGA" true).map
        Prod.fst = Except.ok c2Result := by
  constructor
  · rfl
  · rfl

/-- Witness for the amended C2 theorem: the one shape of run that returns a
ResultSet despite a failing writer is a non-refresh cache hit. -/
theorem c2_write_failure_propagates_witness :
    false = false ∧ c2wEnv.cache (id "FPGA") = CacheSlot.entry [("Ids", [Value.str "9"])] :=
  c2_write_failure_propagates id c1wRates c2wEnv "FPGA" false
    [("Ids", [Value.str "9"])] c2wEnv.cache rfl rfl

/-- C8: a refresh run never reads the cache — its returned ResultSet is
unchanged under an arbitrary replacement of the cache-directory contents —
and, when it succeeds, the final cache state holds the freshly collected
ResultSet under the query text's digest. -/
theorem c8_refresh_overwrites (md5 : String → String) (rates : String → ℚ) (env : Env)
    (cacheB : String → CacheSlot) (text : String) (r : ResultDict)
    (cFinal : String → CacheSlot)
    (hok : collect_vacancies md5 rates env text true = Except.ok (r, cFinal)) :
    (collect_vacancies md5 rates { env with cache := cacheB } text true).map Prod.fst
      = Except.ok r
    ∧ cFinal (md5 text) = CacheSlot.entry r := by
  have hok2 : fresh_collect md5 rates env text = Except.ok (r, cFinal) := by
    simpa [collect_vacancies] using hok
  obtain ⟨hw, hc, reqs, ids, h1, h2⟩ := fresh_collect_ok_inv md5 rates env text r cFinal hok2
  constructor
  · have hB : collect_vacancies md5 rates { env with cache := cacheB } text true
        = Except.ok (r, cache_put cacheB (md5 text) r) := by
      simp [collect_vacancies, fresh_collect, h1, h2, hw]
    rw [hB]
    rfl
  · rw [hc]
    unfold cache_put
    rw [if_pos rfl]

unseal Rat.inv Rat.mul Rat.add Rat.sub in
/-- Witness for C8 at a concrete refresh run: the result is insensitive to
swapping the cache contents for a populated directory, and the final cache
holds the fresh ResultSet under the query digest. -/
theorem c8_refresh_overwrites_witness :
    (collect_vacancies id c1wRates { c8Env with cache := fun _ => CacheSlot.entry [] }
        "FPGA" true).map Prod.fst = Except.ok c2Result
    ∧ (cache_put c8Env.cache (id "FPGA") c2Result) (id "FPGA") = CacheSlot.entry c2Result :=
  c8_refresh_overwrites id c1wRates c8Env (fun _ => CacheSlot.entry []) "FPGA" c2Result
    (cache_put c8Env.cache (id "FPGA") c2Result) (by rfl)

end DataCollector
